import Mathlib

/-!
Shallow embedding of the movesion-simulator engine
(`movesion_simulator/engine/tiers.py` and `movesion_simulator/engine/model.py`).

Python floats are modelled as exact rationals (ℚ); Python exceptions
(`KeyError` for a missing required field, `ValueError`/`IndexError` for
invalid values) are modelled with an explicit error type in `Except`.
-/

namespace Movesion

/-- Errors surfaced by the engine: a missing required scenario field
(Python `KeyError`) or an invalid value (Python `ValueError` / `IndexError`). -/
inductive SimError where
  | missingField (name : String)
  | invalidValue (msg : String)

/-- A single tier of a tiered price schedule: an optional inclusive upper
bound (`up_to`, `none` meaning unlimited) and a unit price
(`engine/types.py`, `TierDefinition`). -/
structure Tier where
  up_to : Option ℚ
  price : ℚ

/-- Loop of `TierCalculator.apply_tiers` (tiers.py lines 41-49): return
`volume * price` of the first tier whose bound is absent or at least the
volume; past the end, fall back to the last tier price. -/
def applyTiersLoop (volume : ℚ) (last : Tier) : List Tier → ℚ
  | [] => volume * last.price
  | t :: rest =>
    match t.up_to with
    | none => volume * t.price
    | some upTo => if volume ≤ upTo then volume * t.price else applyTiersLoop volume last rest

/-- `TierCalculator.apply_tiers` (tiers.py lines 10-49): step-tier pricing,
charging the entire volume at the unit price of the tier the volume falls in. -/
def apply_tiers (volume : ℚ) (tiers : List Tier) : Except SimError ℚ :=
  if volume < 0 then .error (.invalidValue "Volume must be >= 0")
  else match tiers with
  | [] => .error (.invalidValue "Tiers list cannot be empty")
  | t :: rest =>
    if volume = 0 then .ok 0
    else .ok (applyTiersLoop volume ((t :: rest).getLast (by simp)) (t :: rest))

/-- Loop of `TierCalculator.apply_graduated_tiers` (tiers.py lines 77-100),
carrying `remaining` and `previous_up_to`; returns the cost accumulated
from this point on (the Python accumulator is recovered by addition). -/
def gradLoop (remaining prevUpTo : ℚ) : List Tier → ℚ
  | [] => 0
  | t :: rest =>
    match t.up_to with
    | none => remaining * t.price
    | some upTo =>
      let tierVolume := min remaining (upTo - prevUpTo)
      let cost := if 0 < tierVolume then tierVolume * t.price else 0
      let remaining2 := if 0 < tierVolume then remaining - tierVolume else remaining
      if remaining2 ≤ 0 then cost else cost + gradLoop remaining2 upTo rest

/-- `TierCalculator.apply_graduated_tiers` (tiers.py lines 52-100):
graduated/marginal pricing, charging each band portion at its own price. -/
def apply_graduated_tiers (volume : ℚ) (tiers : List Tier) : Except SimError ℚ :=
  if volume < 0 then .error (.invalidValue "Volume must be >= 0")
  else if tiers.isEmpty then .error (.invalidValue "Tiers list cannot be empty")
  else if volume = 0 then .ok 0
  else .ok (gradLoop volume 0 tiers)

/-- Loop of `TierCalculator.get_effective_rate` (tiers.py lines 117-122). -/
def effectiveRateLoop (volume : ℚ) (last : Tier) : List Tier → ℚ
  | [] => last.price
  | t :: rest =>
    match t.up_to with
    | none => t.price
    | some upTo => if volume ≤ upTo then t.price else effectiveRateLoop volume last rest

/-- `TierCalculator.get_effective_rate` (tiers.py lines 102-122).  For
`volume > 0` on an empty list the Python code evaluates `tiers[-1]`,
raising `IndexError`, modelled as an invalid-value error. -/
def get_effective_rate (volume : ℚ) (tiers : List Tier) : Except SimError ℚ :=
  if volume ≤ 0 then
    .ok (match tiers with | [] => 0 | t :: _ => t.price)
  else match tiers with
    | [] => .error (.invalidValue "list index out of range")
    | t :: rest => .ok (effectiveRateLoop volume ((t :: rest).getLast (by simp)) (t :: rest))

/-- Loop of `TierCalculator.find_tier_index` (tiers.py lines 136-140),
carrying the current zero-based index. -/
def findTierIndexLoop (volume : ℚ) (i : ℤ) : List Tier → Option ℤ
  | [] => none
  | t :: rest =>
    match t.up_to with
    | none => some i
    | some upTo => if volume ≤ upTo then some i else findTierIndexLoop volume (i + 1) rest

/-- `TierCalculator.find_tier_index` (tiers.py lines 124-140): zero-based
index of the matching step tier, `len(tiers) - 1` when nothing matches
(hence `-1` on an empty list). -/
def find_tier_index (volume : ℚ) (tiers : List Tier) : ℤ :=
  match findTierIndexLoop volume 0 tiers with
  | some i => i
  | none => (tiers.length : ℤ) - 1

/-! ### Pricing-plan data model (the dictionary shapes consumed by `model.py`) -/

/-- One entry of `pricing_plan["fixed_monthly"]`: `item["key"]`,
`item["amount"]`, `item.get("mandatory", False)`,
`item.get("enabled_by_default", False)` (model.py lines 264-268). -/
structure FixedFee where
  key : String
  amount : ℚ
  mandatory : Bool
  enabled_by_default : Bool

/-- One optional feature: `feature.get("key", map_key)` (`none` models the
absent key, falling back to the map key), `feature.get("setup", 0)`,
`feature.get("monthly", 0)`, `feature.get("enabled_by_default", False)`
(model.py lines 249-255, 271-275). -/
structure OptionalFeature where
  key : Option String
  setup : ℚ
  monthly : ℚ
  enabled_by_default : Bool

/-- One entry of `pricing_plan["event_fees"]`: `e["key"]`, `e["amount"]`,
`e.get("mandatory", False)`, `e.get("enabled_by_default", False)`. -/
structure PlanEventFee where
  key : String
  amount : ℚ
  mandatory : Bool
  enabled_by_default : Bool

/-- Physical manufacturing tier: `tier.get("min_batch", tier.get("min", 0))`,
`tier.get("max_batch", tier.get("max"))`, `tier["price"]`
(model.py lines 375-379). -/
structure MfgTier where
  min_batch : ℚ
  max_batch : Option ℚ
  price : ℚ

/-- Physical delivery method: `m["key"]`, `m["price"]` (model.py 395-401). -/
structure DeliveryMethod where
  key : String
  price : ℚ

/-- `pricing_plan["physical_cards"]` with the dictionary defaults of
model.py lines 367-392 applied (`tiers`/`methods` default to empty,
`default_method` to `"dhl_tracked"`). -/
structure PhysicalCards where
  manufacturing_tiers : List MfgTier
  delivery_methods : List DeliveryMethod
  default_method : String

/-- `pricing_plan["variable_monthly"]` tier schedules, each
`.get(section, {}).get("tiers", [])` (model.py lines 131-149). -/
structure VariableMonthly where
  active_cards_tiers : List Tier
  auth_eea_tiers : List Tier
  auth_non_eea_tiers : List Tier
  three_ds_tiers : List Tier

/-- The complete pricing plan dictionary, restricted to what the engine
reads (`model.py` constructor and `simulate`). -/
structure PricingPlan where
  id : String
  fixed_monthly : List FixedFee
  optional_features : List (String × OptionalFeature)
  event_fees : List PlanEventFee
  variable_monthly : VariableMonthly
  physical_cards : PhysicalCards

/-! ### Scenario data model

Required fields (Python subscript access, `KeyError` when absent) are
`Option` fields read through `reqF`; optional fields (`.get` with a
default) are `Option` fields read through `Option.getD`. -/

/-- `scenario["adoption"]` (model.py lines 60-62). -/
structure Adoption where
  start_active_cards : Option ℚ
  monthly_net_adds : Option ℚ
  churn_rate : Option ℚ

/-- `scenario["usage"]` (model.py lines 65-71). -/
structure Usage where
  spend_per_active_card_month : Option ℚ
  in_app_share : Option ℚ
  avg_ticket : Option ℚ
  ecom_share : Option ℚ
  three_ds_attempt_rate : Option ℚ
  eea_share : Option ℚ
  auth_multiplier : Option ℚ

/-- `b2b["target"]` (model.py lines 83-85, 425-428). -/
structure B2BTarget where
  type : Option String
  months : Option ℕ
  amount : Option ℚ

/-- `commercial["b2b"]` (model.py lines 78-85). -/
structure B2B where
  companies : Option ℚ
  platform_fee_company_month : Option ℚ
  employee_fee_month : Option ℚ
  mode : Option String
  target : Option B2BTarget

/-- `scenario["commercial"]` (model.py lines 74-78). -/
structure Commercial where
  partner_fee_pct : Option ℚ
  interchange_pct : Option ℚ
  b2b : Option B2B

/-- `scenario.get("issuance", {})` (model.py lines 88-89). -/
structure Issuance where
  physical_share_issued : Option ℚ
  issued_equals_net_adds : Option Bool

/-- `scenario.get("ops_assumptions", {})`, read inside
`_compute_event_costs` (model.py lines 317-351). -/
structure OpsAssumptions where
  kyc_attempts_per_new_user : Option ℚ
  doc_confirm_rate_per_new_user : Option ℚ
  dispute_rate_per_tx : Option ℚ
  sms_per_active_user_month : Option ℚ
  pin_changes_per_active_user_month : Option ℚ
  closures_per_churned_user : Option ℚ

/-- `scenario["toggles"]`: a map of boolean flags, an `event_fees` sub-map,
and an optional `delivery_method` string (model.py lines 267, 290, 393). -/
structure Toggles where
  flags : List (String × Bool)
  event_fees : List (String × Bool)
  delivery_method : Option String

/-- The scenario dictionary as read by `simulate` (model.py lines 50-57). -/
structure Scenario where
  name : Option String
  horizon_months : Option ℕ
  adoption : Option Adoption
  usage : Option Usage
  commercial : Option Commercial
  toggles : Option Toggles
  ops_assumptions : Option OpsAssumptions
  issuance : Option Issuance

/-! ### Result data model (`engine/types.py`) -/

/-- `MonthlyResult` (types.py lines 202-239). -/
structure MonthlyResult where
  month : ℕ
  active_cards : ℚ
  issued_cards : ℚ
  issued_physical : ℚ
  issued_virtual : ℚ
  total_spend : ℚ
  in_app_spend : ℚ
  tx_count : ℚ
  eea_auth : ℚ
  non_eea_auth : ℚ
  three_ds_attempts : ℚ
  rev_partner : ℚ
  rev_interchange : ℚ
  rev_b2b : ℚ
  cost_fixed : ℚ
  cost_oneoff : ℚ
  cost_active_cards : ℚ
  cost_auth : ℚ
  cost_3ds : ℚ
  cost_events : ℚ
  cost_physical : ℚ
  total_revenue : ℚ
  total_costs : ℚ
  profit : ℚ
  cumulative_profit : ℚ
  costs_excl_b2b : ℚ
  rev_excl_b2b : ℚ

/-- `SimulationKPIs` (types.py lines 242-258). -/
structure SimulationKPIs where
  breakeven_month : Option ℕ
  profit_year1 : ℚ
  profit_year2 : Option ℚ
  profit_year3 : Option ℚ
  required_employee_fee_month : Option ℚ
  total_revenue : ℚ
  total_costs : ℚ
  total_profit : ℚ
  avg_monthly_profit : ℚ
  roi_percent : Option ℚ
  profit_status : String
  is_solved_breakeven : Bool

/-- `SimulationResult` (types.py lines 261-267). -/
structure SimulationResult where
  rows : List MonthlyResult
  kpis : SimulationKPIs
  scenario_name : String
  pricing_plan_id : String

/-! ### Dictionary lookup helpers -/

/-- Python `d[k]` / `d.get(k)` on a string-keyed map modelled as an
association list: the first matching entry. -/
def lookupStr {α : Type} (l : List (String × α)) (k : String) : Option α :=
  (l.find? (fun p => p.fst == k)).map (·.snd)

/-- Python `d.get(k, default)` on a boolean-valued map. -/
def lookupBoolD (l : List (String × Bool)) (k : String) (d : Bool) : Bool :=
  match lookupStr l k with
  | some b => b
  | none => d

/-- Python subscript access to a required field: `KeyError` → missing-field. -/
def reqF {α : Type} (name : String) : Option α → Except SimError α
  | some x => .ok x
  | none => .error (.missingField name)

/-! ### Scenario parsing (model.py lines 50-89, 238) -/

/-- The scenario values extracted and type-coerced by `simulate`
(model.py lines 50-89) before the monthly loop runs. -/
structure ScenarioParams where
  months : ℕ
  start_active : ℚ
  net_adds : ℚ
  churn_rate : ℚ
  spend_per_active : ℚ
  in_app_share : ℚ
  avg_ticket : ℚ
  ecom_share : ℚ
  three_ds_attempt_rate : ℚ
  eea_share : ℚ
  auth_multiplier : ℚ
  partner_fee_pct : ℚ
  interchange_pct : ℚ
  companies : ℚ
  platform_fee_company_month : ℚ
  employee_fee_month : ℚ
  b2b_mode : String
  target_months : ℕ
  target_type : String
  target_amount : ℚ
  physical_share : ℚ
  issued_equals_net_adds : Bool
  toggles : Toggles
  ops : OpsAssumptions
  name : String

/-- Field extraction of `simulate` (model.py lines 50-89), in source order:
subscript access fails with a missing-field error, `.get` supplies the
coded default. -/
def parseScenario (s : Scenario) : Except SimError ScenarioParams := do
  let months ← reqF "horizon_months" s.horizon_months
  let adoption ← reqF "adoption" s.adoption
  let usage ← reqF "usage" s.usage
  let commercial ← reqF "commercial" s.commercial
  let toggles ← reqF "toggles" s.toggles
  let ops := s.ops_assumptions.getD ⟨none, none, none, none, none, none⟩
  let issuance := s.issuance.getD ⟨none, none⟩
  let start_active ← reqF "start_active_cards" adoption.start_active_cards
  let net_adds := adoption.monthly_net_adds.getD 0
  let churn_rate := adoption.churn_rate.getD 0
  let spend_per_active ← reqF "spend_per_active_card_month" usage.spend_per_active_card_month
  let in_app_share ← reqF "in_app_share" usage.in_app_share
  let avg_ticket ← reqF "avg_ticket" usage.avg_ticket
  let ecom_share ← reqF "ecom_share" usage.ecom_share
  let three_ds_attempt_rate := usage.three_ds_attempt_rate.getD 1
  let eea_share := usage.eea_share.getD (19 / 20)
  let auth_multiplier := usage.auth_multiplier.getD 1
  let partner_fee_pct ← reqF "partner_fee_pct" commercial.partner_fee_pct
  let interchange_pct ← reqF "interchange_pct" commercial.interchange_pct
  let b2b ← reqF "b2b" commercial.b2b
  let companies := b2b.companies.getD 1
  let platform_fee_company_month := b2b.platform_fee_company_month.getD 0
  let employee_fee_month := b2b.employee_fee_month.getD 0
  let b2b_mode := b2b.mode.getD "given"
  let target := b2b.target.getD ⟨some "breakeven", some 12, none⟩
  let target_months := target.months.getD 12
  let target_type := target.type.getD "breakeven"
  let target_amount := target.amount.getD 0
  let physical_share := issuance.physical_share_issued.getD 0
  let issued_equals_net_adds := issuance.issued_equals_net_adds.getD true
  let name := s.name.getD "Unnamed Scenario"
  .ok ⟨months, start_active, net_adds, churn_rate, spend_per_active, in_app_share,
    avg_ticket, ecom_share, three_ds_attempt_rate, eea_share, auth_multiplier,
    partner_fee_pct, interchange_pct, companies, platform_fee_company_month,
    employee_fee_month, b2b_mode, target_months, target_type, target_amount,
    physical_share, issued_equals_net_adds, toggles, ops, name⟩

/-! ### Cost helpers (model.py lines 242-403) -/

/-- `SimulationEngine._compute_one_offs` (model.py lines 242-257): total
setup cost of enabled optional features, all landing in month 1; the
returned rational is the single value stored under key 1 of the Python
dictionary (0 when the dictionary stays empty). -/
def compute_one_offs (features : List (String × OptionalFeature)) (tog : Toggles) : ℚ :=
  features.foldl (fun acc kv =>
    let toggle_key := kv.snd.key.getD kv.fst
    if lookupBoolD tog.flags toggle_key kv.snd.enabled_by_default then
      if 0 < kv.snd.setup then acc + kv.snd.setup else acc
    else acc) 0

/-- `SimulationEngine._compute_fixed_monthly` (model.py lines 259-277). -/
def compute_fixed_monthly (plan : PricingPlan) (tog : Toggles) : ℚ :=
  let fixedPart := plan.fixed_monthly.foldl (fun acc item =>
    if item.mandatory || lookupBoolD tog.flags item.key item.enabled_by_default then
      acc + item.amount
    else acc) 0
  plan.optional_features.foldl (fun acc kv =>
    let toggle_key := kv.snd.key.getD kv.fst
    if lookupBoolD tog.flags toggle_key kv.snd.enabled_by_default then
      acc + kv.snd.monthly
    else acc) fixedPart

/-- `is_enabled` inside `_compute_event_costs` (model.py lines 293-301). -/
def isEnabledEvent (eventMap : List (String × PlanEventFee))
    (eventToggles : List (String × Bool)) (key : String) : Bool :=
  match lookupStr eventMap key with
  | some cfg => cfg.mandatory || lookupBoolD eventToggles key cfg.enabled_by_default
  | none => lookupBoolD eventToggles key false

/-- `SimulationEngine._compute_event_costs` (model.py lines 279-356). -/
def compute_event_costs (eventMap : List (String × PlanEventFee)) (tog : Toggles)
    (ops : OpsAssumptions) (issued issued_physical tx active churned : ℚ) : ℚ :=
  let eventToggles := tog.event_fees
  let c0 : ℚ := 0
  let c1 := match lookupStr eventMap "card_issue" with
    | some f => c0 + issued * f.amount
    | none => c0
  let c2 := if 0 < issued_physical ∧ isEnabledEvent eventMap eventToggles "plastic_personalization" then
      match lookupStr eventMap "plastic_personalization" with
      | some f => c1 + issued_physical * f.amount
      | none => c1
    else c1
  let c3 := if 0 < issued ∧ isEnabledEvent eventMap eventToggles "kyc_attempt" then
      match lookupStr eventMap "kyc_attempt" with
      | some f => c2 + issued * (ops.kyc_attempts_per_new_user.getD 1) * f.amount
      | none => c2
    else c2
  let c4 := if 0 < issued ∧ isEnabledEvent eventMap eventToggles "account_documents" then
      match lookupStr eventMap "account_documents" with
      | some f => c3 + issued * (ops.doc_confirm_rate_per_new_user.getD 0) * f.amount
      | none => c3
    else c3
  let c5 := if isEnabledEvent eventMap eventToggles "dispute" then
      match lookupStr eventMap "dispute" with
      | some f => c4 + tx * (ops.dispute_rate_per_tx.getD 0) * f.amount
      | none => c4
    else c4
  let c6 := if isEnabledEvent eventMap eventToggles "sms" then
      match lookupStr eventMap "sms" with
      | some f => c5 + active * (ops.sms_per_active_user_month.getD 0) * f.amount
      | none => c5
    else c5
  let c7 := if isEnabledEvent eventMap eventToggles "pin_change" then
      match lookupStr eventMap "pin_change" with
      | some f => c6 + active * (ops.pin_changes_per_active_user_month.getD 0) * f.amount
      | none => c6
    else c6
  if isEnabledEvent eventMap eventToggles "account_closure" then
    match lookupStr eventMap "account_closure" with
    | some f => c7 + churned * (ops.closures_per_churned_user.getD 0) * f.amount
    | none => c7
  else c7

/-- Manufacturing tier loop of `_compute_physical_costs`
(model.py lines 374-381): price of the first tier whose batch band
contains the count (0 when none matches). -/
def mfgLoopPrice (phys : ℚ) : List MfgTier → ℚ
  | [] => 0
  | t :: rest =>
    match t.max_batch with
    | none => if t.min_batch ≤ phys then t.price else mfgLoopPrice phys rest
    | some mb => if t.min_batch ≤ phys ∧ phys ≤ mb then t.price else mfgLoopPrice phys rest

/-- `SimulationEngine._compute_physical_costs` (model.py lines 358-403). -/
def compute_physical_costs (plan : PricingPlan) (tog : Toggles) (issued_physical : ℚ) : ℚ :=
  if issued_physical ≤ 0 then 0
  else
    let mfg :=
      if lookupBoolD tog.flags "physical_manufacturing" false then
        let tiers := plan.physical_cards.manufacturing_tiers
        let price := mfgLoopPrice issued_physical tiers
        let price2 := if price = 0 then
            match tiers with
            | [] => price
            | t :: _ => t.price
          else price
        issued_physical * price2
      else 0
    let deliv :=
      if lookupBoolD tog.flags "physical_delivery" false then
        let methods := plan.physical_cards.delivery_methods
        let method_key := tog.delivery_method.getD plan.physical_cards.default_method
        let method := match methods.find? (fun m => m.key == method_key) with
          | some m => some m
          | none => methods.head?
        match method with
        | some m => issued_physical * m.price
        | none => 0
      else 0
    mfg + deliv

/-! ### The monthly simulation loop (model.py lines 100-210) -/

/-- Body of the `for m in range(1, months + 1)` loop of `simulate`
(model.py lines 105-210): given the carried state (previous active count
and cumulative profit), produce the row for month `m` and the new state. -/
def simStep (plan : PricingPlan) (p : ScenarioParams) (eventMap : List (String × PlanEventFee))
    (fixed_monthly_total one_offs_month1 : ℚ) (m : ℕ) (active0 cum0 : ℚ) :
    Except SimError (MonthlyResult × ℚ × ℚ) := do
  let churned := active0 * p.churn_rate
  let active := max 0 (active0 - churned + p.net_adds)
  let issued0 := if p.issued_equals_net_adds then p.net_adds else 0
  let issued := max 0 issued0
  let issued_physical := issued * p.physical_share
  let issued_virtual := issued - issued_physical
  let total_spend := active * p.spend_per_active
  let in_app_spend := total_spend * p.in_app_share
  let tx := if p.avg_ticket ≤ 0 then 0 else (total_spend / p.avg_ticket) * p.auth_multiplier
  let eea_auth := tx * p.eea_share
  let non_eea_auth := tx - eea_auth
  let ecom_tx := tx * p.ecom_share
  let three_ds_attempts := ecom_tx * p.three_ds_attempt_rate
  let partner_rev := in_app_spend * p.partner_fee_pct
  let interchange_rev := total_spend * p.interchange_pct
  let active_cost ← apply_tiers active plan.variable_monthly.active_cards_tiers
  let eea_cost ← apply_tiers eea_auth plan.variable_monthly.auth_eea_tiers
  let non_eea_cost ← apply_tiers non_eea_auth plan.variable_monthly.auth_non_eea_tiers
  let auth_cost := eea_cost + non_eea_cost
  let three_ds_cost ← apply_tiers three_ds_attempts plan.variable_monthly.three_ds_tiers
  let fixed_cost := fixed_monthly_total
  let one_off := if m = 1 then one_offs_month1 else 0
  let event_cost := compute_event_costs eventMap p.toggles p.ops issued issued_physical tx active churned
  let physical_cost := compute_physical_costs plan p.toggles issued_physical
  let costs_excl_b2b := fixed_cost + one_off + active_cost + auth_cost +
    three_ds_cost + event_cost + physical_cost
  let rev_excl_b2b := partner_rev + interchange_rev
  let b2b_rev := if p.b2b_mode == "given" then
      p.companies * p.platform_fee_company_month + active * p.employee_fee_month
    else 0
  let total_rev := rev_excl_b2b + b2b_rev
  let profit := total_rev - costs_excl_b2b
  let cum := cum0 + profit
  .ok (⟨m, active, issued, issued_physical, issued_virtual, total_spend, in_app_spend, tx,
    eea_auth, non_eea_auth, three_ds_attempts, partner_rev, interchange_rev, b2b_rev,
    fixed_cost, one_off, active_cost, auth_cost, three_ds_cost, event_cost, physical_cost,
    total_rev, costs_excl_b2b, profit, cum, costs_excl_b2b, rev_excl_b2b⟩, active, cum)

/-- The monthly loop over a list of month numbers, threading the active
count and cumulative profit (model.py lines 101-210). -/
def simLoop (plan : PricingPlan) (p : ScenarioParams) (eventMap : List (String × PlanEventFee))
    (fixed_monthly_total one_offs_month1 : ℚ) :
    List ℕ → ℚ → ℚ → Except SimError (List MonthlyResult)
  | [], _, _ => .ok []
  | m :: ms, active, cum => do
    let r ← simStep plan p eventMap fixed_monthly_total one_offs_month1 m active cum
    let rest ← simLoop plan p eventMap fixed_monthly_total one_offs_month1 ms r.2.1 r.2.2
    .ok (r.1 :: rest)

/-! ### The B2B fee solver and re-application pass (model.py 212-231, 405-438) -/

/-- `SimulationEngine._solve_employee_fee` (model.py lines 405-438). -/
def solve_employee_fee (rows : List MonthlyResult) (companies platform_fee_company_month : ℚ)
    (target_months : ℕ) (target_type : String) (target_amount : ℚ) : ℚ :=
  let horizon := min target_months rows.length
  let total_costs := ((rows.take horizon).map (·.costs_excl_b2b)).sum
  let total_rev := ((rows.take horizon).map (·.rev_excl_b2b)).sum
  let total_active_months := ((rows.take horizon).map (·.active_cards)).sum
  let platform_component := companies * platform_fee_company_month * horizon
  let target_profit_total :=
    if target_type == "profit" then target_amount
    else if target_type == "margin" then total_rev * target_amount
    else 0
  let needed_b2b_total := (total_costs - total_rev) + target_profit_total - platform_component
  if total_active_months ≤ 0 then 0
  else max 0 (needed_b2b_total / total_active_months)

/-- The re-application pass of `simulate` (model.py lines 220-230):
rewrite `rev_b2b`, `total_revenue`, `profit` and `cumulative_profit` of
every row using the solved fee, threading the cumulative profit. -/
def reapplyFee (companies platform_fee_company_month fee : ℚ) :
    List MonthlyResult → ℚ → List MonthlyResult
  | [], _ => []
  | r :: rs, cum =>
    let rev_b2b := companies * platform_fee_company_month + r.active_cards * fee
    let total_revenue := r.rev_excl_b2b + rev_b2b
    let profit := total_revenue - r.costs_excl_b2b
    let cum2 := cum + profit
    { r with
        rev_b2b := rev_b2b
        total_revenue := total_revenue
        profit := profit
        cumulative_profit := cum2 } ::
      reapplyFee companies platform_fee_company_month fee rs cum2

/-! ### KPI derivation (model.py lines 440-503) -/

/-- Breakeven scan of `_calculate_kpis` (model.py lines 449-458): the
first row at which cumulative profit, having previously been below the
`-0.01` tolerance, is non-negative. -/
def breakevenLoop : List MonthlyResult → Bool → Option ℕ
  | [], _ => none
  | r :: rest, wasNeg =>
    if r.cumulative_profit < -(1 / 100) then breakevenLoop rest true
    else if wasNeg ∧ 0 ≤ r.cumulative_profit then some r.month
    else breakevenLoop rest wasNeg

/-- `SimulationEngine._calculate_kpis` (model.py lines 440-503). -/
def calculate_kpis (rows : List MonthlyResult) (months : ℕ)
    (required_employee_fee : Option ℚ) : SimulationKPIs :=
  let breakeven_month := breakevenLoop rows false
  let profit_year1 := ((rows.take 12).map (·.profit)).sum
  let profit_year2 := if 24 ≤ months then some ((((rows.drop 12).take 12).map (·.profit)).sum) else none
  let profit_year3 := if 36 ≤ months then some ((((rows.drop 24).take 12).map (·.profit)).sum) else none
  let total_revenue := (rows.map (·.total_revenue)).sum
  let total_costs := (rows.map (·.total_costs)).sum
  let total_profit := (rows.map (·.profit)).sum
  let avg_monthly_profit := if rows.isEmpty then 0 else total_profit / rows.length
  let is_solved_breakeven := required_employee_fee.isSome
  let profit_status :=
    if |total_profit| < 1 then "balanced"
    else if 0 < total_profit then "profitable"
    else "loss"
  let roi_percent := if 0 < total_costs then some ((total_profit / total_costs) * 100) else none
  ⟨breakeven_month, profit_year1, profit_year2, profit_year3, required_employee_fee,
    total_revenue, total_costs, total_profit, avg_monthly_profit, roi_percent,
    profit_status, is_solved_breakeven⟩

/-! ### simulate (model.py lines 40-240) -/

/-- The month numbers `range(1, months + 1)`. -/
def monthRange (months : ℕ) : List ℕ := List.range' 1 months

/-- `SimulationEngine.simulate` (model.py lines 40-240): parse the
scenario, run the monthly loop, optionally solve and re-apply the B2B
employee fee, and derive KPIs. -/
def simulate (plan : PricingPlan) (scenario : Scenario) : Except SimError SimulationResult := do
  let p ← parseScenario scenario
  let eventMap := plan.event_fees.map (fun e => (e.key, e))
  let one_offs_month1 := compute_one_offs plan.optional_features p.toggles
  let fixed_monthly_total := compute_fixed_monthly plan p.toggles
  let rows ← simLoop plan p eventMap fixed_monthly_total one_offs_month1
    (monthRange p.months) p.start_active 0
  if p.b2b_mode == "solve_employee_fee" then
    let fee := solve_employee_fee rows p.companies p.platform_fee_company_month
      p.target_months p.target_type p.target_amount
    let rows2 := reapplyFee p.companies p.platform_fee_company_month fee rows 0
    .ok ⟨rows2, calculate_kpis rows2 p.months (some fee), p.name, plan.id⟩
  else
    .ok ⟨rows, calculate_kpis rows p.months none, p.name, plan.id⟩

instance : Inhabited MonthlyResult :=
  ⟨⟨0, 0, 0, 0, 0, 0, 0, 0, 0, 0, 0, 0, 0, 0, 0, 0, 0, 0, 0, 0, 0, 0, 0, 0, 0, 0, 0⟩⟩

deriving instance DecidableEq for SimError
deriving instance DecidableEq for Except
deriving instance DecidableEq for Tier
deriving instance DecidableEq for FixedFee
deriving instance DecidableEq for OptionalFeature
deriving instance DecidableEq for PlanEventFee
deriving instance DecidableEq for MfgTier
deriving instance DecidableEq for DeliveryMethod
deriving instance DecidableEq for PhysicalCards
deriving instance DecidableEq for VariableMonthly
deriving instance DecidableEq for PricingPlan
deriving instance DecidableEq for Adoption
deriving instance DecidableEq for Usage
deriving instance DecidableEq for B2BTarget
deriving instance DecidableEq for B2B
deriving instance DecidableEq for Commercial
deriving instance DecidableEq for Issuance
deriving instance DecidableEq for OpsAssumptions
deriving instance DecidableEq for Toggles
deriving instance DecidableEq for Scenario
deriving instance DecidableEq for MonthlyResult
deriving instance DecidableEq for SimulationKPIs
deriving instance DecidableEq for SimulationResult
deriving instance DecidableEq for ScenarioParams

/-! ### Concrete fixtures used by the concrete-scenario claims -/

/-- A pricing plan with a single unbounded tier per variable-cost schedule
and no fixed, optional, event or physical fees. -/
def planA : PricingPlan :=
  ⟨"plan-a", [], [], [],
    ⟨[⟨none, 19 / 20⟩], [⟨none, 1 / 500⟩], [⟨none, 1 / 250⟩], [⟨none, 1 / 500⟩]⟩,
    ⟨[], [], "dhl_tracked"⟩⟩

/-- A pricing plan whose tier schedules all price at zero. -/
def planZero : PricingPlan :=
  ⟨"plan-zero", [], [], [],
    ⟨[⟨none, 0⟩], [⟨none, 0⟩], [⟨none, 0⟩], [⟨none, 0⟩]⟩,
    ⟨[], [], "dhl_tracked"⟩⟩

/-- B2B sub-config in "given" mode with zero fees. -/
def b2bGiven : B2B := ⟨some 1, some 0, some 0, some "given", none⟩

/-- B2B sub-config in "solve_employee_fee" mode with the given platform fee
and the default target (breakeven over 12 months). -/
def b2bSolve (pf : ℚ) : B2B := ⟨some 1, some pf, some 0, some "solve_employee_fee", none⟩

/-- The spec §8 growth scenario: 3000 starting cards, 100 net adds, zero
churn, 12-month horizon. -/
def scenGrowth : Scenario :=
  ⟨none, some 12, some ⟨some 3000, some 100, some 0⟩,
    some ⟨some 200, some (1 / 2), some 50, some (3 / 10), none, none, none⟩,
    some ⟨some (1 / 50), some (1 / 500), some b2bGiven⟩,
    some ⟨[], [], none⟩, none, none⟩

/-- A degenerate solve scenario: zero starting cards in
"solve_employee_fee" mode. -/
def scenDegen : Scenario :=
  ⟨none, some 12, some ⟨some 0, some 0, some 0⟩,
    some ⟨some 200, some (1 / 2), some 50, some (3 / 10), none, none, none⟩,
    some ⟨some (1 / 50), some (1 / 500), some (b2bSolve 0)⟩,
    some ⟨[], [], none⟩, none, none⟩

/-- A solve scenario that is already profitable without any employee fee:
1000 active cards, zero spend, zero variable prices, platform fee 10. -/
def scenProfitableSolve : Scenario :=
  ⟨none, some 12, some ⟨some 1000, some 0, some 0⟩,
    some ⟨some 0, some (1 / 2), some 50, some (3 / 10), none, none, none⟩,
    some ⟨some (1 / 50), some (1 / 500), some (b2bSolve 10)⟩,
    some ⟨[], [], none⟩, none, none⟩

/-- A solve scenario with real costs (0.95 per active card) and no revenue,
whose breakeven fee solves exactly. -/
def scenSolvable : Scenario :=
  ⟨none, some 12, some ⟨some 1000, some 0, some 0⟩,
    some ⟨some 0, some (1 / 2), some 50, some (3 / 10), none, none, none⟩,
    some ⟨some (1 / 50), some (1 / 500), some (b2bSolve 0)⟩,
    some ⟨[], [], none⟩, none, none⟩

/-- An out-of-domain scenario: negative spend per active card, with
`avg_ticket = 0` so that no negative volume ever reaches a tier lookup. -/
def scenNegSpendOk : Scenario :=
  ⟨none, some 12, some ⟨some 1000, some 0, some 0⟩,
    some ⟨some (-5), some (1 / 2), some 0, some (3 / 10), none, none, none⟩,
    some ⟨some (1 / 50), some (1 / 500), some b2bGiven⟩,
    some ⟨[], [], none⟩, none, none⟩

/-- An out-of-domain scenario: negative spend per active card with a
positive average ticket, so the negative authorization volume hits the
tier lookup. -/
def scenNegSpendFail : Scenario :=
  ⟨none, some 12, some ⟨some 1000, some 0, some 0⟩,
    some ⟨some (-5), some (1 / 2), some 50, some (3 / 10), none, none, none⟩,
    some ⟨some (1 / 50), some (1 / 500), some b2bGiven⟩,
    some ⟨[], [], none⟩, none, none⟩

/-- The crossing condition of the breakeven scan with an explicit starting
flag: cumulative profit at row `k` is non-negative while the flag was
already set or some earlier row dipped below the −0.01 tolerance. -/
def crossesAtFlag (rows : List MonthlyResult) (wasNeg : Bool) (k : ℕ) : Prop :=
  0 ≤ (rows.getD k default).cumulative_profit ∧
    (wasNeg = true ∨ ∃ j < k, (rows.getD j default).cumulative_profit < -(1 / 100))

/-- The growth scenario with its required horizon field removed. -/
def scenNoHorizon : Scenario := { scenGrowth with horizon_months := none }

/-- The parsed parameters of `scenGrowth`. -/
def pGrowth : ScenarioParams :=
  (parseScenario scenGrowth).toOption.getD
    ⟨0, 0, 0, 0, 0, 0, 0, 0, 0, 0, 0, 0, 0, 0, 0, 0, "", 0, "", 0, 0, true,
      ⟨[], [], none⟩, ⟨none, none, none, none, none, none⟩, ""⟩

/-- The simulation result of the growth scenario under `planA`. -/
def growthResult : SimulationResult :=
  (simulate planA scenGrowth).toOption.getD ⟨[], calculate_kpis [] 0 none, "", ""⟩

/-- The simulation result of the solvable breakeven scenario under `planA`. -/
def solvableResult : SimulationResult :=
  (simulate planA scenSolvable).toOption.getD ⟨[], calculate_kpis [] 0 none, "", ""⟩

/-- The parsed parameters of `scenSolvable`. -/
def pSolvable : ScenarioParams :=
  (parseScenario scenSolvable).toOption.getD
    ⟨0, 0, 0, 0, 0, 0, 0, 0, 0, 0, 0, 0, 0, 0, 0, 0, "", 0, "", 0, 0, true,
      ⟨[], [], none⟩, ⟨none, none, none, none, none, none⟩, ""⟩

/-! ### General lemmas about the embedding -/

theorem exceptBind_ok_iff {α β : Type} {e : Except SimError α}
    {f : α → Except SimError β} {b : β} :
    (e >>= f) = .ok b ↔ ∃ a, e = .ok a ∧ f a = .ok b := by
  cases e with
  | error err =>
    constructor
    · intro h
      exact absurd h (by simp [Bind.bind, Except.bind])
    · rintro ⟨a, ha, _⟩
      cases ha
  | ok a =>
    constructor
    · intro h
      exact ⟨a, rfl, by simpa [Bind.bind, Except.bind] using h⟩
    · rintro ⟨a2, ha, hf⟩
      cases ha
      simpa [Bind.bind, Except.bind] using hf

theorem simStep_ok_fields {plan : PricingPlan} {p : ScenarioParams}
    {em : List (String × PlanEventFee)} {ft oo : ℚ} {m : ℕ} {a0 c0 : ℚ}
    {r : MonthlyResult} {a' c' : ℚ}
    (h : simStep plan p em ft oo m a0 c0 = .ok (r, a', c')) :
    r.month = m ∧
    r.active_cards = max 0 (a0 - a0 * p.churn_rate + p.net_adds) ∧
    a' = r.active_cards ∧
    c' = r.cumulative_profit ∧
    r.cumulative_profit = c0 + r.profit ∧
    r.profit = r.total_revenue - r.costs_excl_b2b ∧
    r.total_revenue = r.rev_excl_b2b + r.rev_b2b ∧
    r.total_costs = r.costs_excl_b2b ∧
    r.rev_b2b = (if p.b2b_mode == "given" then
      p.companies * p.platform_fee_company_month + r.active_cards * p.employee_fee_month
    else 0) := by
  unfold simStep at h
  simp only [exceptBind_ok_iff, bind_pure_comp] at h
  obtain ⟨ac, hac, ⟨ec, hec, ⟨nc, hnc, ⟨tc, htc, h⟩⟩⟩⟩ := h
  injection h with h
  rw [Prod.mk.injEq, Prod.mk.injEq] at h
  obtain ⟨hr, ha, hc⟩ := h
  subst hr ha hc
  refine ⟨rfl, rfl, rfl, rfl, ?_, ?_, rfl, rfl, ?_⟩ <;> simp

theorem simLoop_cons_ok {plan : PricingPlan} {p : ScenarioParams}
    {em : List (String × PlanEventFee)} {ft oo : ℚ} {m : ℕ} {ms : List ℕ}
    {a c : ℚ} {rows : List MonthlyResult}
    (h : simLoop plan p em ft oo (m :: ms) a c = .ok rows) :
    ∃ r a' c' rest, simStep plan p em ft oo m a c = .ok (r, a', c') ∧
      simLoop plan p em ft oo ms a' c' = .ok rest ∧ rows = r :: rest := by
  unfold simLoop at h
  simp only [exceptBind_ok_iff] at h
  obtain ⟨⟨r, a', c'⟩, hstep, rest, hloop, hrows⟩ := h
  injection hrows with hrows
  exact ⟨r, a', c', rest, hstep, hloop, hrows.symm⟩

theorem simLoop_nil_ok {plan : PricingPlan} {p : ScenarioParams}
    {em : List (String × PlanEventFee)} {ft oo : ℚ} {a c : ℚ}
    {rows : List MonthlyResult}
    (h : simLoop plan p em ft oo [] a c = .ok rows) : rows = [] := by
  unfold simLoop at h
  injection h with h
  exact h.symm

theorem simLoop_length {plan : PricingPlan} {p : ScenarioParams}
    {em : List (String × PlanEventFee)} {ft oo : ℚ} {ms : List ℕ}
    {a c : ℚ} {rows : List MonthlyResult}
    (h : simLoop plan p em ft oo ms a c = .ok rows) : rows.length = ms.length := by
  induction ms generalizing a c rows with
  | nil => simp [simLoop_nil_ok h]
  | cons m ms ih =>
    obtain ⟨r, a', c', rest, _, hloop, hrows⟩ := simLoop_cons_ok h
    subst hrows
    simp [ih hloop]

theorem simLoop_cumulative {plan : PricingPlan} {p : ScenarioParams}
    {em : List (String × PlanEventFee)} {ft oo : ℚ} {ms : List ℕ}
    {a c0 : ℚ} {rows : List MonthlyResult}
    (h : simLoop plan p em ft oo ms a c0 = .ok rows) :
    ∀ i, i < rows.length →
      (rows.getD i default).cumulative_profit =
        c0 + (((rows.take (i + 1)).map (·.profit)).sum) := by
  induction ms generalizing a c0 rows with
  | nil => simp [simLoop_nil_ok h]
  | cons m ms ih =>
    obtain ⟨r, a', c', rest, hstep, hloop, hrows⟩ := simLoop_cons_ok h
    subst hrows
    obtain ⟨-, -, -, hc', hcum, -⟩ := simStep_ok_fields hstep
    subst hc'
    intro i hi
    cases i with
    | zero => simpa using hcum
    | succ i =>
      have := ih hloop i (by simpa using hi)
      simp only [List.getD, List.get?, List.take, List.map, List.sum_cons] at this ⊢
      rw [this, hcum]
      ring

theorem simLoop_active_zero {plan : PricingPlan} {p : ScenarioParams}
    {em : List (String × PlanEventFee)} {ft oo : ℚ} {m : ℕ} {ms : List ℕ}
    {a c0 : ℚ} {rows : List MonthlyResult}
    (h : simLoop plan p em ft oo (m :: ms) a c0 = .ok rows) :
    (rows.getD 0 default).active_cards = max 0 (a - a * p.churn_rate + p.net_adds) := by
  obtain ⟨r, a', c', rest, hstep, _, hrows⟩ := simLoop_cons_ok h
  subst hrows
  obtain ⟨-, hact, -⟩ := simStep_ok_fields hstep
  simpa using hact

theorem simLoop_active_succ {plan : PricingPlan} {p : ScenarioParams}
    {em : List (String × PlanEventFee)} {ft oo : ℚ} {ms : List ℕ}
    {a c0 : ℚ} {rows : List MonthlyResult}
    (h : simLoop plan p em ft oo ms a c0 = .ok rows) :
    ∀ i, i + 1 < rows.length →
      (rows.getD (i + 1) default).active_cards =
        max 0 ((rows.getD i default).active_cards
          - (rows.getD i default).active_cards * p.churn_rate + p.net_adds) := by
  induction ms generalizing a c0 rows with
  | nil => simp [simLoop_nil_ok h]
  | cons m ms ih =>
    obtain ⟨r, a', c', rest, hstep, hloop, hrows⟩ := simLoop_cons_ok h
    subst hrows
    obtain ⟨-, hact, ha', -⟩ := simStep_ok_fields hstep
    subst ha'
    intro i hi
    cases i with
    | zero =>
      cases ms with
      | nil =>
        have := simLoop_nil_ok hloop
        subst this
        simp at hi
      | cons m2 ms2 =>
        have h0 := simLoop_active_zero hloop
        simpa using h0
    | succ i =>
      have := ih hloop i (by simpa using hi)
      simpa using this

theorem reapplyFee_length (companies pf fee : ℚ) (rows : List MonthlyResult) (cum : ℚ) :
    (reapplyFee companies pf fee rows cum).length = rows.length := by
  induction rows generalizing cum with
  | nil => rfl
  | cons r rs ih => simp [reapplyFee, ih]

theorem reapplyFee_fields (companies pf fee : ℚ) (rows : List MonthlyResult) (cum : ℚ) :
    ∀ i, i < rows.length →
      ((reapplyFee companies pf fee rows cum).getD i default).active_cards =
          (rows.getD i default).active_cards ∧
      ((reapplyFee companies pf fee rows cum).getD i default).costs_excl_b2b =
          (rows.getD i default).costs_excl_b2b ∧
      ((reapplyFee companies pf fee rows cum).getD i default).rev_excl_b2b =
          (rows.getD i default).rev_excl_b2b ∧
      ((reapplyFee companies pf fee rows cum).getD i default).month =
          (rows.getD i default).month ∧
      ((reapplyFee companies pf fee rows cum).getD i default).rev_b2b =
          companies * pf + (rows.getD i default).active_cards * fee ∧
      ((reapplyFee companies pf fee rows cum).getD i default).total_revenue =
          (rows.getD i default).rev_excl_b2b +
            ((reapplyFee companies pf fee rows cum).getD i default).rev_b2b ∧
      ((reapplyFee companies pf fee rows cum).getD i default).profit =
          ((reapplyFee companies pf fee rows cum).getD i default).total_revenue -
            (rows.getD i default).costs_excl_b2b := by
  induction rows generalizing cum with
  | nil => intro i hi; simp at hi
  | cons r rs ih =>
    intro i hi
    cases i with
    | zero => simp [reapplyFee]
    | succ i =>
      have := ih (cum + ((r.rev_excl_b2b + (companies * pf + r.active_cards * fee)) -
        r.costs_excl_b2b)) i (by simpa using hi)
      simpa [reapplyFee] using this

theorem reapplyFee_cumulative (companies pf fee : ℚ) (rows : List MonthlyResult) (cum : ℚ) :
    ∀ i, i < rows.length →
      ((reapplyFee companies pf fee rows cum).getD i default).cumulative_profit =
        cum + ((((reapplyFee companies pf fee rows cum).take (i + 1)).map (·.profit)).sum) := by
  induction rows generalizing cum with
  | nil => intro i hi; simp at hi
  | cons r rs ih =>
    intro i hi
    cases i with
    | zero => simp [reapplyFee]
    | succ i =>
      have := ih (cum + ((r.rev_excl_b2b + (companies * pf + r.active_cards * fee)) -
        r.costs_excl_b2b)) i (by simpa using hi)
      simp only [reapplyFee, List.getD, List.get?, List.take, List.map, List.sum_cons] at this ⊢
      rw [this]
      ring

theorem reapplyFee_profit_sum (companies pf fee : ℚ) (rows : List MonthlyResult)
    (cum : ℚ) (n : ℕ) :
    ((((reapplyFee companies pf fee rows cum).take n).map (·.profit)).sum) =
      (((rows.take n).map (fun r => r.rev_excl_b2b - r.costs_excl_b2b)).sum) +
        ((min n rows.length : ℕ) : ℚ) * (companies * pf) +
        fee * (((rows.take n).map (·.active_cards)).sum) := by
  induction rows generalizing cum n with
  | nil => simp [reapplyFee]
  | cons r rs ih =>
    cases n with
    | zero => simp
    | succ n =>
      have := ih (cum + ((r.rev_excl_b2b + (companies * pf + r.active_cards * fee)) -
        r.costs_excl_b2b)) n
      simp only [reapplyFee, List.take, List.map, List.sum_cons, List.length_cons] at this ⊢
      rw [this]
      have hmin : min (n + 1) (rs.length + 1) = (min n rs.length) + 1 := by omega
      rw [hmin]
      push_cast
      ring

theorem reqF_ok_iff {α : Type} {n : String} {o : Option α} {a : α} :
    reqF n o = .ok a ↔ o = some a := by
  cases o <;> simp [reqF]

theorem reqF_none {α : Type} (n : String) : (reqF n (none : Option α)) = .error (.missingField n) := rfl

/-- `simulate` succeeding decomposes into a successful parse, a successful
monthly loop, and the mode-dependent assembly of the result. -/
theorem simulate_ok_elim {plan : PricingPlan} {s : Scenario} {res : SimulationResult}
    (h : simulate plan s = .ok res) :
    ∃ p rows, parseScenario s = .ok p ∧
      simLoop plan p (plan.event_fees.map (fun e => (e.key, e)))
        (compute_fixed_monthly plan p.toggles) (compute_one_offs plan.optional_features p.toggles)
        (monthRange p.months) p.start_active 0 = .ok rows ∧
      ((p.b2b_mode == "solve_employee_fee") = true →
        res = ⟨reapplyFee p.companies p.platform_fee_company_month
                (solve_employee_fee rows p.companies p.platform_fee_company_month
                  p.target_months p.target_type p.target_amount) rows 0,
              calculate_kpis
                (reapplyFee p.companies p.platform_fee_company_month
                  (solve_employee_fee rows p.companies p.platform_fee_company_month
                    p.target_months p.target_type p.target_amount) rows 0)
                p.months
                (some (solve_employee_fee rows p.companies p.platform_fee_company_month
                  p.target_months p.target_type p.target_amount)),
              p.name, plan.id⟩) ∧
      ((p.b2b_mode == "solve_employee_fee") = false →
        res = ⟨rows, calculate_kpis rows p.months none, p.name, plan.id⟩) := by
  unfold simulate at h
  simp only [exceptBind_ok_iff] at h
  obtain ⟨p, hp, rows, hrows, h⟩ := h
  refine ⟨p, rows, hp, hrows, ?_, ?_⟩ <;> intro hmode <;>
    simp only [hmode, if_true, if_false, Bool.false_eq_true] at h <;>
    · injection h with h
      exact h.symm

theorem simulate_parse_error {plan : PricingPlan} {s : Scenario} {e : SimError}
    (h : parseScenario s = .error e) : simulate plan s = .error e := by
  unfold simulate
  simp [h, Bind.bind, Except.bind]

/-- A successful parse pins down every required scenario field. -/
theorem parseScenario_ok_shape {s : Scenario} {p : ScenarioParams}
    (h : parseScenario s = .ok p) :
    s.horizon_months = some p.months ∧
    (∃ a, s.adoption = some a ∧ a.start_active_cards = some p.start_active) ∧
    (∃ u, s.usage = some u ∧ u.spend_per_active_card_month = some p.spend_per_active ∧
      u.in_app_share = some p.in_app_share ∧ u.avg_ticket = some p.avg_ticket ∧
      u.ecom_share = some p.ecom_share) ∧
    (∃ c, s.commercial = some c ∧ c.partner_fee_pct = some p.partner_fee_pct ∧
      c.interchange_pct = some p.interchange_pct ∧ ∃ b, c.b2b = some b) ∧
    (∃ t, s.toggles = some t) := by
  unfold parseScenario at h
  simp only [exceptBind_ok_iff, reqF_ok_iff] at h
  obtain ⟨mo, hmo, ad, had, u, hu, c, hc, t, ht, sa, hsa, sp, hsp, ia, hia, tk, htk,
    ec, hec, pf, hpf, ic, hic, b, hb, h⟩ := h
  injection h with h
  subst h
  exact ⟨hmo, ⟨ad, had, hsa⟩, ⟨u, hu, hsp, hia, htk, hec⟩, ⟨c, hc, hpf, hic, b, hb⟩, ⟨t, ht⟩⟩

/-- `parseScenario` can only fail with a missing-field error: every error
it raises comes from a required-field access. -/
theorem parseScenario_error_shape {s : Scenario} {e : SimError}
    (h : parseScenario s = .error e) : ∃ n, e = .missingField n := by
  obtain ⟨nm, mo, ad, u, c, t, ops, iss⟩ := s
  cases mo with
  | none => injection h with h; exact ⟨_, h.symm⟩
  | some mo =>
  cases ad with
  | none => injection h with h; exact ⟨_, h.symm⟩
  | some ad =>
  cases u with
  | none => injection h with h; exact ⟨_, h.symm⟩
  | some u =>
  cases c with
  | none => injection h with h; exact ⟨_, h.symm⟩
  | some c =>
  cases t with
  | none => injection h with h; exact ⟨_, h.symm⟩
  | some t =>
  obtain ⟨sa, na, ch⟩ := ad
  cases sa with
  | none => injection h with h; exact ⟨_, h.symm⟩
  | some sa =>
  obtain ⟨sp, ia, tk, ec, tds, eea, am⟩ := u
  cases sp with
  | none => injection h with h; exact ⟨_, h.symm⟩
  | some sp =>
  cases ia with
  | none => injection h with h; exact ⟨_, h.symm⟩
  | some ia =>
  cases tk with
  | none => injection h with h; exact ⟨_, h.symm⟩
  | some tk =>
  cases ec with
  | none => injection h with h; exact ⟨_, h.symm⟩
  | some ec =>
  obtain ⟨pf, ic, b⟩ := c
  cases pf with
  | none => injection h with h; exact ⟨_, h.symm⟩
  | some pf =>
  cases ic with
  | none => injection h with h; exact ⟨_, h.symm⟩
  | some ic =>
  cases b with
  | none => injection h with h; exact ⟨_, h.symm⟩
  | some b => exact absurd h (by simp [parseScenario, reqF, Bind.bind, Except.bind])

attribute [local semireducible] Rat.mul Rat.add Rat.sub Rat.inv Rat.ofScientific

/-- Loop characterization: `applyTiersLoop` returns the price of the first
matching tier, or the fallback when no tier matches. -/
theorem applyTiersLoop_eq_find (v : ℚ) (last : Tier) (l : List Tier) :
    applyTiersLoop v last l =
      (match l.find? (fun tr => match tr.up_to with
          | none => true
          | some b => decide (v ≤ b)) with
        | some tr => v * tr.price
        | none => v * last.price) := by
  induction l with
  | nil => rfl
  | cons t rest ih =>
    cases hu : t.up_to with
    | none => simp [applyTiersLoop, List.find?, hu]
    | some b =>
      by_cases hb : v ≤ b
      · simp [applyTiersLoop, List.find?, hu, hb]
      · simp [applyTiersLoop, List.find?, hu, hb, ih]

/-- C2: for every volume `v > 0` and every non-empty step-tier schedule,
`apply_tiers v tiers` equals `v` multiplied by the unit price of the first
tier in schedule order whose `up_to` is null or at least `v`; if no tier
matches (malformed schedule), the result is `v` multiplied by the last
tier's price. -/
theorem C2_apply_tiers_first_match (v : ℚ) (t : Tier) (rest : List Tier) (hv : 0 < v) :
    apply_tiers v (t :: rest) =
      .ok (match (t :: rest).find? (fun tr => match tr.up_to with
          | none => true
          | some b => decide (v ≤ b)) with
        | some tr => v * tr.price
        | none => v * ((t :: rest).getLast (by simp)).price) := by
  rw [show apply_tiers v (t :: rest) =
      .ok (applyTiersLoop v ((t :: rest).getLast (by simp)) (t :: rest)) by
    unfold apply_tiers
    rw [if_neg (not_lt.2 hv.le)]
    exact if_neg hv.ne']
  rw [applyTiersLoop_eq_find]

/-- Witness for C2 at a concrete input: volume 5 matches the first tier
(bound 10, price 2), so the whole volume is charged at price 2. -/
theorem C2_witness : 0 < (5 : ℚ) ∧
    apply_tiers 5 [⟨some 10, 2⟩, ⟨none, 1⟩] = .ok 10 := by
  refine ⟨by norm_num, ?_⟩
  rw [C2_apply_tiers_first_match 5 ⟨some 10, 2⟩ [⟨none, 1⟩] (by norm_num)]
  decide

/-- C8: `apply_tiers` and `apply_graduated_tiers` fail (with an
invalid-value error) exactly when the volume is negative or the tier list
is empty; in all other cases they return a value, and at volume 0 that
value is 0 whatever the (non-empty) tier list contains. -/
theorem C8_tier_error_conditions (v : ℚ) (tiers : List Tier) :
    ((∃ m, apply_tiers v tiers = .error (.invalidValue m)) ↔ v < 0 ∨ tiers = []) ∧
    ((∃ m, apply_graduated_tiers v tiers = .error (.invalidValue m)) ↔ v < 0 ∨ tiers = []) ∧
    (¬(v < 0 ∨ tiers = []) →
      (∃ q, apply_tiers v tiers = .ok q) ∧ (∃ q, apply_graduated_tiers v tiers = .ok q)) ∧
    (tiers ≠ [] → apply_tiers 0 tiers = .ok 0 ∧ apply_graduated_tiers 0 tiers = .ok 0) := by
  refine ⟨?_, ?_, ?_, ?_⟩
  · cases tiers <;> by_cases hv : v < 0 <;> by_cases h0 : v = 0 <;>
      simp [apply_tiers, hv, h0]
  · cases tiers <;> by_cases hv : v < 0 <;> by_cases h0 : v = 0 <;>
      simp [apply_graduated_tiers, hv, h0]
  · intro hc
    push_neg at hc
    obtain ⟨hv, ht⟩ := hc
    cases tiers with
    | nil => exact absurd rfl ht
    | cons t rest =>
      by_cases h0 : v = 0 <;>
        simp [apply_tiers, apply_graduated_tiers, not_lt.2 hv, h0]
  · intro ht
    cases tiers with
    | nil => exact absurd rfl ht
    | cons t rest => simp [apply_tiers, apply_graduated_tiers]

/-- Witness for C8 at a concrete input: a non-empty one-tier list, where
volume 0 prices to 0 under both models. -/
theorem C8_witness : apply_tiers 0 [⟨none, 2⟩] = .ok 0 ∧
    apply_graduated_tiers 0 [⟨none, 2⟩] = .ok 0 :=
  (C8_tier_error_conditions 0 [⟨none, 2⟩]).2.2.2 (by simp)

/-- C10: the lookup helpers accept an empty tier schedule:
`find_tier_index` returns `-1` (not a valid zero-based index) without an
error, and `get_effective_rate` returns 0 for every non-positive volume. -/
theorem C10_lookup_helpers_empty :
    (∀ v : ℚ, find_tier_index v [] = -1) ∧
    (∀ v : ℚ, v ≤ 0 → get_effective_rate v [] = .ok 0) := by
  constructor
  · intro v
    rfl
  · intro v hv
    simp [get_effective_rate, hv]

/-- Witness for C10 at concrete inputs. -/
theorem C10_witness : find_tier_index 7 [] = -1 ∧ get_effective_rate (-3) [] = .ok 0 :=
  ⟨C10_lookup_helpers_empty.1 7, C10_lookup_helpers_empty.2 (-3) (by norm_num)⟩

/-! ### Breakeven-scan characterization (claim C6) -/

theorem crossesAtFlag_zero (r : MonthlyResult) (rest : List MonthlyResult) (wasNeg : Bool) :
    crossesAtFlag (r :: rest) wasNeg 0 ↔ (0 ≤ r.cumulative_profit ∧ wasNeg = true) := by
  unfold crossesAtFlag
  simp

theorem crossesAtFlag_succ (r : MonthlyResult) (rest : List MonthlyResult)
    (wasNeg : Bool) (k : ℕ) :
    crossesAtFlag (r :: rest) wasNeg (k + 1) ↔
      (0 ≤ (rest.getD k default).cumulative_profit ∧
        (wasNeg = true ∨ r.cumulative_profit < -(1 / 100) ∨
          ∃ j < k, (rest.getD j default).cumulative_profit < -(1 / 100))) := by
  unfold crossesAtFlag
  rw [List.getD_cons_succ]
  constructor
  · rintro ⟨h0, hflag | ⟨j, hj, hcum⟩⟩
    · exact ⟨h0, Or.inl hflag⟩
    · cases j with
      | zero => exact ⟨h0, Or.inr (Or.inl (by simpa using hcum))⟩
      | succ j =>
        exact ⟨h0, Or.inr (Or.inr ⟨j, by omega, by simpa using hcum⟩)⟩
  · rintro ⟨h0, hflag | hr | ⟨j, hj, hcum⟩⟩
    · exact ⟨h0, Or.inl hflag⟩
    · exact ⟨h0, Or.inr ⟨0, by omega, by simpa using hr⟩⟩
    · exact ⟨h0, Or.inr ⟨j + 1, by omega, by simpa using hcum⟩⟩

theorem breakevenLoop_cons (r : MonthlyResult) (rest : List MonthlyResult) (wasNeg : Bool) :
    breakevenLoop (r :: rest) wasNeg =
      if r.cumulative_profit < -(1 / 100) then breakevenLoop rest true
      else if wasNeg = true ∧ 0 ≤ r.cumulative_profit then some r.month
      else breakevenLoop rest wasNeg := rfl

/-- The breakeven scan returns exactly the month of the first crossing row. -/
theorem breakevenLoop_some_iff (rows : List MonthlyResult) (wasNeg : Bool) (m : ℕ) :
    breakevenLoop rows wasNeg = some m ↔
      ∃ k, k < rows.length ∧ (rows.getD k default).month = m ∧
        crossesAtFlag rows wasNeg k ∧ ∀ i < k, ¬ crossesAtFlag rows wasNeg i := by
  induction rows generalizing wasNeg with
  | nil => simp [breakevenLoop]
  | cons r rest ih =>
    by_cases h1 : r.cumulative_profit < -(1 / 100)
    · rw [show breakevenLoop (r :: rest) wasNeg = breakevenLoop rest true by
        rw [breakevenLoop_cons, if_pos h1]]
      rw [ih true]
      have hnot0 : ¬ crossesAtFlag (r :: rest) wasNeg 0 := by
        rw [crossesAtFlag_zero]
        rintro ⟨h0, -⟩
        linarith
      have hsh : ∀ k, crossesAtFlag (r :: rest) wasNeg (k + 1) ↔ crossesAtFlag rest true k := by
        intro k
        rw [crossesAtFlag_succ]
        unfold crossesAtFlag
        constructor
        · rintro ⟨h0, -⟩
          exact ⟨h0, Or.inl rfl⟩
        · rintro ⟨h0, -⟩
          exact ⟨h0, Or.inr (Or.inl h1)⟩
      constructor
      · rintro ⟨k, hk, hm, hcross, hfirst⟩
        refine ⟨k + 1, by simpa using hk, by simpa using hm, (hsh k).2 hcross, ?_⟩
        intro i hi
        cases i with
        | zero => exact hnot0
        | succ i => exact fun hc => hfirst i (by omega) ((hsh i).1 hc)
      · rintro ⟨k, hk, hm, hcross, hfirst⟩
        cases k with
        | zero => exact absurd hcross hnot0
        | succ k =>
          refine ⟨k, by simpa using hk, by simpa using hm, (hsh k).1 hcross, ?_⟩
          intro i hi hc
          exact hfirst (i + 1) (by omega) ((hsh i).2 hc)
    · by_cases h2 : wasNeg = true ∧ 0 ≤ r.cumulative_profit
      · rw [show breakevenLoop (r :: rest) wasNeg = some r.month by
          rw [breakevenLoop_cons, if_neg h1, if_pos h2]]
        have hc0 : crossesAtFlag (r :: rest) wasNeg 0 := by
          rw [crossesAtFlag_zero]; exact ⟨h2.2, h2.1⟩
        constructor
        · rintro h
          injection h with h
          exact ⟨0, by simp, by simpa using h, hc0, by omega⟩
        · rintro ⟨k, hk, hm, hcross, hfirst⟩
          cases k with
          | zero => simpa using hm ▸ rfl
          | succ k => exact absurd hc0 (hfirst 0 (by omega))
      · rw [show breakevenLoop (r :: rest) wasNeg = breakevenLoop rest wasNeg by
          rw [breakevenLoop_cons, if_neg h1, if_neg h2]]
        rw [ih wasNeg]
        have hnot0 : ¬ crossesAtFlag (r :: rest) wasNeg 0 := by
          rw [crossesAtFlag_zero]
          rintro ⟨h0, hw⟩
          exact h2 ⟨hw, h0⟩
        have hsh : ∀ k, crossesAtFlag (r :: rest) wasNeg (k + 1) ↔ crossesAtFlag rest wasNeg k := by
          intro k
          rw [crossesAtFlag_succ]
          unfold crossesAtFlag
          constructor
          · rintro ⟨h0, hw | hr | hx⟩
            · exact ⟨h0, Or.inl hw⟩
            · exact absurd hr h1
            · exact ⟨h0, Or.inr hx⟩
          · rintro ⟨h0, hw | hx⟩
            · exact ⟨h0, Or.inl hw⟩
            · exact ⟨h0, Or.inr (Or.inr hx)⟩
        constructor
        · rintro ⟨k, hk, hm, hcross, hfirst⟩
          refine ⟨k + 1, by simpa using hk, by simpa using hm, (hsh k).2 hcross, ?_⟩
          intro i hi
          cases i with
          | zero => exact hnot0
          | succ i => exact fun hc => hfirst i (by omega) ((hsh i).1 hc)
        · rintro ⟨k, hk, hm, hcross, hfirst⟩
          cases k with
          | zero => exact absurd hcross hnot0
          | succ k =>
            refine ⟨k, by simpa using hk, by simpa using hm, (hsh k).1 hcross, ?_⟩
            intro i hi hc
            exact hfirst (i + 1) (by omega) ((hsh i).2 hc)

/-- If cumulative profit never dips below the −0.01 tolerance, the scan
reports no breakeven month. -/
theorem breakevenLoop_none_of_never_negative (rows : List MonthlyResult)
    (h : ∀ r ∈ rows, -(1 / 100 : ℚ) ≤ r.cumulative_profit) :
    breakevenLoop rows false = none := by
  induction rows with
  | nil => rfl
  | cons r rest ih =>
    rw [breakevenLoop_cons]
    rw [if_neg (not_lt.2 (h r (by simp)))]
    rw [if_neg (by simp)]
    exact ih (fun q hq => h q (by simp [hq]))

/-- C6: the `breakeven_month` KPI is the breakeven scan of the row
sequence, which returns the month of the first row whose cumulative profit
is non-negative after some earlier row dipped below the −0.01 tolerance;
for every row sequence whose cumulative profit never goes below −0.01 the
scan returns none, even if every month is profitable. -/
theorem C6_breakeven_first_crossing (rows : List MonthlyResult) (months : ℕ) (req : Option ℚ) :
    ((calculate_kpis rows months req).breakeven_month = breakevenLoop rows false) ∧
    ((∀ r ∈ rows, -(1 / 100 : ℚ) ≤ r.cumulative_profit) → breakevenLoop rows false = none) ∧
    (∀ m, breakevenLoop rows false = some m ↔
      ∃ k, k < rows.length ∧ (rows.getD k default).month = m ∧
        (0 ≤ (rows.getD k default).cumulative_profit ∧
          ∃ j < k, (rows.getD j default).cumulative_profit < -(1 / 100)) ∧
        ∀ i < k, ¬(0 ≤ (rows.getD i default).cumulative_profit ∧
          ∃ j < i, (rows.getD j default).cumulative_profit < -(1 / 100))) := by
  refine ⟨rfl, breakevenLoop_none_of_never_negative rows, ?_⟩
  intro m
  rw [breakevenLoop_some_iff]
  unfold crossesAtFlag
  simp

/-- Witness for C6 at a concrete input: a single all-zero row never dips
below the tolerance, so no breakeven month is reported. -/
theorem C6_witness : breakevenLoop [default] false = none :=
  (C6_breakeven_first_crossing [default] 1 none).2.1 (by decide)

/-- Rows of a simulation result agree with the first-pass rows on length
and on the fields the re-application pass does not touch. -/
theorem simulate_rows_preserved {plan : PricingPlan} {s : Scenario} {res : SimulationResult}
    {p : ScenarioParams} {rows : List MonthlyResult}
    (hp : parseScenario s = .ok p)
    (hloop : simLoop plan p (plan.event_fees.map (fun e => (e.key, e)))
      (compute_fixed_monthly plan p.toggles) (compute_one_offs plan.optional_features p.toggles)
      (monthRange p.months) p.start_active 0 = .ok rows)
    (hsolve : (p.b2b_mode == "solve_employee_fee") = true →
      res = ⟨reapplyFee p.companies p.platform_fee_company_month
              (solve_employee_fee rows p.companies p.platform_fee_company_month
                p.target_months p.target_type p.target_amount) rows 0,
            calculate_kpis
              (reapplyFee p.companies p.platform_fee_company_month
                (solve_employee_fee rows p.companies p.platform_fee_company_month
                  p.target_months p.target_type p.target_amount) rows 0)
              p.months
              (some (solve_employee_fee rows p.companies p.platform_fee_company_month
                p.target_months p.target_type p.target_amount)),
            p.name, plan.id⟩)
    (hgiven : (p.b2b_mode == "solve_employee_fee") = false →
      res = ⟨rows, calculate_kpis rows p.months none, p.name, plan.id⟩) :
    res.rows.length = rows.length ∧
    ∀ i, i < rows.length →
      (res.rows.getD i default).active_cards = (rows.getD i default).active_cards := by
  rcases Bool.eq_false_or_eq_true (p.b2b_mode == "solve_employee_fee") with hm | hm
  · rw [hsolve hm]
    exact ⟨reapplyFee_length _ _ _ rows 0,
      fun i hi => (reapplyFee_fields _ _ _ rows 0 i hi).1⟩
  · rw [hgiven hm]
    exact ⟨rfl, fun i hi => rfl⟩

/-- C1: for every scenario, the monthly active-card state carried across
iterations evolves by `churned = active_prev * churn_rate`,
`active = max 0 (active_prev - churned + net_adds)` with a constant
per-month `net_adds`; concretely, from 3000 active cards with 100 net adds
and zero churn over 12 months, month 1 has 3100 active cards and month 12
has 4200. -/
theorem C1_active_recurrence :
    (∀ (plan : PricingPlan) (scen : Scenario) (res : SimulationResult) (p : ScenarioParams),
      simulate plan scen = .ok res → parseScenario scen = .ok p →
      (0 < res.rows.length →
        (res.rows.getD 0 default).active_cards =
          max 0 (p.start_active - p.start_active * p.churn_rate + p.net_adds)) ∧
      (∀ i, i + 1 < res.rows.length →
        (res.rows.getD (i + 1) default).active_cards =
          max 0 ((res.rows.getD i default).active_cards
            - (res.rows.getD i default).active_cards * p.churn_rate + p.net_adds))) ∧
    ((simulate planA scenGrowth).toOption.map (fun r =>
        ((r.rows.getD 0 default).month, (r.rows.getD 0 default).active_cards,
         (r.rows.getD 11 default).month, (r.rows.getD 11 default).active_cards)) =
      some (1, 3100, 12, 4200)) := by
  constructor
  · intro plan scen res p hsim hp
    obtain ⟨p2, rows, hp2, hloop, hsolve, hgiven⟩ := simulate_ok_elim hsim
    rw [hp] at hp2
    injection hp2 with hp2
    subst hp2
    obtain ⟨hlen, hact⟩ := simulate_rows_preserved hp hloop hsolve hgiven
    constructor
    · intro h0
      rw [hlen] at h0
      rw [hact 0 h0]
      cases hmo : p.months with
      | zero =>
        rw [hmo] at hloop
        have := simLoop_nil_ok hloop
        subst this
        simp at h0
      | succ n =>
        rw [hmo, show monthRange (n + 1) = 1 :: List.range' 2 n from
          by simp [monthRange, List.range'_succ]] at hloop
        exact simLoop_active_zero hloop
    · intro i hi
      rw [hlen] at hi
      rw [hact (i + 1) hi, hact i (by omega)]
      exact simLoop_active_succ hloop i hi
  · decide

/-- Witness for C1 applied to the growth scenario: the month-2 active
count follows the recurrence from the month-1 active count. -/
theorem C1_witness :
    (growthResult.rows.getD 1 default).active_cards =
      max 0 ((growthResult.rows.getD 0 default).active_cards
        - (growthResult.rows.getD 0 default).active_cards * pGrowth.churn_rate
        + pGrowth.net_adds) :=
  (C1_active_recurrence.1 planA scenGrowth growthResult pGrowth
    (by decide) (by decide)).2 0 (by decide)

/-- C5: for every simulation result, every row's `cumulative_profit`
equals the sum of `profit` over rows 1 through that row, on whichever pass
(initial monthly pass, or the B2B re-application pass) produced the
returned rows. -/
theorem C5_cumulative_profit (plan : PricingPlan) (scen : Scenario) (res : SimulationResult)
    (hsim : simulate plan scen = .ok res) :
    ∀ i, i < res.rows.length →
      (res.rows.getD i default).cumulative_profit =
        (((res.rows.take (i + 1)).map (·.profit)).sum) := by
  obtain ⟨p, rows, hp, hloop, hsolve, hgiven⟩ := simulate_ok_elim hsim
  rcases Bool.eq_false_or_eq_true (p.b2b_mode == "solve_employee_fee") with hm | hm
  · rw [hsolve hm]
    intro i hi
    have hi2 : i < rows.length := by
      simpa [reapplyFee_length] using hi
    simpa using reapplyFee_cumulative p.companies p.platform_fee_company_month
      (solve_employee_fee rows p.companies p.platform_fee_company_month
        p.target_months p.target_type p.target_amount) rows 0 i hi2
  · rw [hgiven hm]
    intro i hi
    simpa using simLoop_cumulative hloop i (by simpa using hi)

/-- Witness for C5 applied to the growth scenario at month 1. -/
theorem C5_witness :
    (growthResult.rows.getD 0 default).cumulative_profit =
      ((growthResult.rows.take 1).map (·.profit)).sum :=
  C5_cumulative_profit planA scenGrowth growthResult (by decide) 0 (by decide)

/-- C3: the employee-fee solver works over horizon = min(target months,
simulated horizon) and returns
`max 0 (((Σ costs_excl_b2b − Σ rev_excl_b2b) + target_profit −
companies × platform_fee × horizon) / Σ active_cards)`, where
target_profit is 0 for a breakeven target, the target amount for a profit
target, and amount × Σ non-B2B revenue for a margin target; when
Σ active_cards over the horizon is non-positive the fee is 0, and a
degenerate scenario (zero starting cards) still simulates successfully
with a zero fee. -/
theorem C3_solver_formula :
    (∀ (rows : List MonthlyResult) (companies pf ta : ℚ) (tm : ℕ),
      (solve_employee_fee rows companies pf tm "breakeven" ta =
        (if (((rows.take (min tm rows.length)).map (·.active_cards)).sum) ≤ 0 then 0
         else max 0 ((((((rows.take (min tm rows.length)).map (·.costs_excl_b2b)).sum
              - (((rows.take (min tm rows.length)).map (·.rev_excl_b2b)).sum)) + 0)
              - companies * pf * ((min tm rows.length : ℕ) : ℚ))
            / (((rows.take (min tm rows.length)).map (·.active_cards)).sum)))) ∧
      (solve_employee_fee rows companies pf tm "profit" ta =
        (if (((rows.take (min tm rows.length)).map (·.active_cards)).sum) ≤ 0 then 0
         else max 0 ((((((rows.take (min tm rows.length)).map (·.costs_excl_b2b)).sum
              - (((rows.take (min tm rows.length)).map (·.rev_excl_b2b)).sum)) + ta)
              - companies * pf * ((min tm rows.length : ℕ) : ℚ))
            / (((rows.take (min tm rows.length)).map (·.active_cards)).sum)))) ∧
      (solve_employee_fee rows companies pf tm "margin" ta =
        (if (((rows.take (min tm rows.length)).map (·.active_cards)).sum) ≤ 0 then 0
         else max 0 ((((((rows.take (min tm rows.length)).map (·.costs_excl_b2b)).sum
              - (((rows.take (min tm rows.length)).map (·.rev_excl_b2b)).sum))
              + (((rows.take (min tm rows.length)).map (·.rev_excl_b2b)).sum) * ta)
              - companies * pf * ((min tm rows.length : ℕ) : ℚ))
            / (((rows.take (min tm rows.length)).map (·.active_cards)).sum))))) ∧
    ((simulate planA scenDegen).toOption.map
        (fun r => (r.kpis.required_employee_fee_month,
          ((r.rows.take 12).map (·.active_cards)).sum)) = some (some 0, 0)) := by
  refine ⟨fun rows companies pf ta tm => ⟨rfl, rfl, rfl⟩, by decide⟩

/-- The re-application pass leaves the per-row projections of the fields
it does not touch unchanged. -/
theorem reapplyFee_map_fields (companies pf fee : ℚ) (rows : List MonthlyResult) (cum : ℚ) :
    (reapplyFee companies pf fee rows cum).map (·.active_cards) = rows.map (·.active_cards) ∧
    (reapplyFee companies pf fee rows cum).map (·.costs_excl_b2b) = rows.map (·.costs_excl_b2b) ∧
    (reapplyFee companies pf fee rows cum).map (·.rev_excl_b2b) = rows.map (·.rev_excl_b2b) := by
  induction rows generalizing cum with
  | nil => simp [reapplyFee]
  | cons r rs ih =>
    obtain ⟨h1, h2, h3⟩ := ih (cum + ((r.rev_excl_b2b +
      (companies * pf + r.active_cards * fee)) - r.costs_excl_b2b))
    simp [reapplyFee, h1, h2, h3]

theorem solve_employee_fee_nonneg (rows : List MonthlyResult) (c pf ta : ℚ)
    (tm : ℕ) (tt : String) : 0 ≤ solve_employee_fee rows c pf tm tt ta := by
  unfold solve_employee_fee
  dsimp only
  split
  · exact le_rfl
  · exact le_max_left 0 _

theorem take_map_sum_congr {f : MonthlyResult → ℚ} {l1 l2 : List MonthlyResult} (n : ℕ)
    (h : l1.map f = l2.map f) : ((l1.take n).map f).sum = ((l2.take n).map f).sum := by
  rw [List.map_take, List.map_take, h]

theorem sum_map_sub (l : List MonthlyResult) (f g : MonthlyResult → ℚ) :
    (l.map (fun r => f r - g r)).sum = (l.map f).sum - (l.map g).sum := by
  induction l with
  | nil => simp
  | cons r rs ih => simp [ih]; ring

/-- Counterexample to C4 as stated: under a zero-cost plan, a solve-mode
breakeven scenario (platform fee 10, 1000 active cards) needs no employee
fee; the solver clamps the fee to 0, `required_employee_fee_month` is
present and ≥ 0, but the 12-month profit is 120, not within 1.0 of zero. -/
theorem C4_counterexample :
    (simulate planZero scenProfitableSolve).toOption.map
        (fun res => (res.kpis.required_employee_fee_month,
          ((res.rows.take 12).map (·.profit)).sum)) = some (some 0, 120) ∧
    ¬(|(120 : ℚ)| ≤ 1) :=
  ⟨by decide, by norm_num⟩

/-- C4 (amended): for a solve-mode breakeven target over 12 months with a
horizon of at least 12 months, the solved fee is present, non-negative and
applied uniformly to every month of the full horizon with revenue and
profit recomputed; and provided the unclamped solution is non-negative
(total costs exceed non-B2B plus platform revenue over the window) and the
window has positive active card-months, the 12-month profit is exactly 0. -/
theorem C4_employee_fee_breakeven (plan : PricingPlan) (scen : Scenario)
    (res : SimulationResult) (p : ScenarioParams)
    (hsim : simulate plan scen = .ok res) (hp : parseScenario scen = .ok p)
    (hmode : p.b2b_mode = "solve_employee_fee") (htt : p.target_type = "breakeven")
    (htm : p.target_months = 12) (hhor : 12 ≤ p.months) :
    ∃ fee, res.kpis.required_employee_fee_month = some fee ∧ 0 ≤ fee ∧
      (∀ i, i < res.rows.length →
        (res.rows.getD i default).rev_b2b =
          p.companies * p.platform_fee_company_month +
            (res.rows.getD i default).active_cards * fee ∧
        (res.rows.getD i default).total_revenue =
          (res.rows.getD i default).rev_excl_b2b + (res.rows.getD i default).rev_b2b ∧
        (res.rows.getD i default).profit =
          (res.rows.getD i default).total_revenue -
            (res.rows.getD i default).costs_excl_b2b) ∧
      (0 < ((res.rows.take 12).map (·.active_cards)).sum →
        0 ≤ (((res.rows.take 12).map (·.costs_excl_b2b)).sum
            - ((res.rows.take 12).map (·.rev_excl_b2b)).sum)
            - p.companies * p.platform_fee_company_month * 12 →
        (((res.rows.take 12).map (·.profit)).sum) = 0) := by
  obtain ⟨p2, rows, hp2, hloop, hsolve, hgiven⟩ := simulate_ok_elim hsim
  rw [hp] at hp2
  injection hp2 with hp2
  subst hp2
  have hmodeb : (p.b2b_mode == "solve_employee_fee") = true := by
    rw [hmode]; rfl
  have hres := hsolve hmodeb
  subst hres
  rw [htm, htt]
  have hlenrows : rows.length = p.months := by
    rw [simLoop_length hloop]
    simp [monthRange]
  have h12 : min 12 rows.length = 12 := by omega
  refine ⟨solve_employee_fee rows p.companies p.platform_fee_company_month
    12 "breakeven" p.target_amount, by simp [calculate_kpis], ?_, ?_, ?_⟩
  · exact solve_employee_fee_nonneg rows p.companies p.platform_fee_company_month
      p.target_amount 12 "breakeven"
  · intro i hi
    have hi2 : i < rows.length := by
      simpa [reapplyFee_length] using hi
    obtain ⟨ha, hc, hr, -, hb2b, htot, hprof⟩ :=
      reapplyFee_fields p.companies p.platform_fee_company_month
        (solve_employee_fee rows p.companies p.platform_fee_company_month
          12 "breakeven" p.target_amount) rows 0 i hi2
    refine ⟨?_, ?_, ?_⟩
    · rw [ha]
      exact hb2b
    · rw [hr]
      exact htot
    · rw [hc]
      exact hprof
  · intro hA hneeded
    obtain ⟨hma, hmc, hmr⟩ := reapplyFee_map_fields p.companies p.platform_fee_company_month
      (solve_employee_fee rows p.companies p.platform_fee_company_month
        12 "breakeven" p.target_amount) rows 0
    rw [take_map_sum_congr 12 hma] at hA
    rw [take_map_sum_congr 12 hmc, take_map_sum_congr 12 hmr] at hneeded
    rw [reapplyFee_profit_sum, sum_map_sub, h12]
    have hfee : solve_employee_fee rows p.companies p.platform_fee_company_month
        12 "breakeven" p.target_amount =
        ((((rows.take 12).map (·.costs_excl_b2b)).sum
            - ((rows.take 12).map (·.rev_excl_b2b)).sum) + 0
            - p.companies * p.platform_fee_company_month * ((12 : ℕ) : ℚ))
          / ((rows.take 12).map (·.active_cards)).sum := by
      rw [show solve_employee_fee rows p.companies p.platform_fee_company_month
          12 "breakeven" p.target_amount =
          (if (((rows.take (min 12 rows.length)).map (·.active_cards)).sum) ≤ 0 then 0
           else max 0 ((((((rows.take (min 12 rows.length)).map (·.costs_excl_b2b)).sum
                - (((rows.take (min 12 rows.length)).map (·.rev_excl_b2b)).sum)) + 0)
                - p.companies * p.platform_fee_company_month * ((min 12 rows.length : ℕ) : ℚ))
              / (((rows.take (min 12 rows.length)).map (·.active_cards)).sum)) : ℚ) from rfl]
      rw [h12, if_neg (not_le.2 hA)]
      refine max_eq_right (div_nonneg ?_ hA.le)
      push_cast
      linarith
    rw [hfee]
    rw [div_mul_cancel₀ _ (ne_of_gt hA)]
    push_cast
    ring

/-- Witness for the amended C4 at a concrete input: `scenSolvable` solves
to a positive fee (0.95) and its 12-month profit is exactly zero. -/
theorem C4_witness :
    ∃ fee, solvableResult.kpis.required_employee_fee_month = some fee ∧ 0 ≤ fee ∧
      (∀ i, i < solvableResult.rows.length →
        (solvableResult.rows.getD i default).rev_b2b =
          pSolvable.companies * pSolvable.platform_fee_company_month +
            (solvableResult.rows.getD i default).active_cards * fee ∧
        (solvableResult.rows.getD i default).total_revenue =
          (solvableResult.rows.getD i default).rev_excl_b2b +
            (solvableResult.rows.getD i default).rev_b2b ∧
        (solvableResult.rows.getD i default).profit =
          (solvableResult.rows.getD i default).total_revenue -
            (solvableResult.rows.getD i default).costs_excl_b2b) ∧
      (0 < ((solvableResult.rows.take 12).map (·.active_cards)).sum →
        0 ≤ (((solvableResult.rows.take 12).map (·.costs_excl_b2b)).sum
            - ((solvableResult.rows.take 12).map (·.rev_excl_b2b)).sum)
            - pSolvable.companies * pSolvable.platform_fee_company_month * 12 →
        (((solvableResult.rows.take 12).map (·.profit)).sum) = 0) :=
  C4_employee_fee_breakeven planA scenSolvable solvableResult pSolvable
    (by decide) (by decide) (by decide) (by decide) (by decide) (by decide)

/-- Counterexample to C7 as stated: `spend_per_active_card_month = -5` is
out of its declared domain, yet with `avg_ticket = 0` no negative volume
ever reaches a tier lookup and `simulate` succeeds instead of failing with
an invalid-value error. -/
theorem C7_counterexample :
    (∃ u, scenNegSpendOk.usage = some u ∧ u.spend_per_active_card_month = some (-5)) ∧
    (-5 : ℚ) < 0 ∧
    (simulate planA scenNegSpendOk).toOption.isSome = true :=
  ⟨⟨_, rfl, rfl⟩, by norm_num, by decide⟩

/-- C7 (amended): `simulate` fails with a missing-field error whenever a
required scenario field or required sub-field is absent; out-of-domain
values are not validated up front, and an invalid-value error surfaces
only when such a value drives a negative volume into a tier lookup during
the monthly loop (e.g. negative spend with positive active cards and a
positive average ticket). -/
theorem C7_missing_field_and_invalid_value :
    (∀ (plan : PricingPlan) (s : Scenario),
      (s.horizon_months = none ∨ s.adoption = none ∨ s.usage = none ∨
        s.commercial = none ∨ s.toggles = none ∨
        (∃ a, s.adoption = some a ∧ a.start_active_cards = none) ∨
        (∃ u, s.usage = some u ∧ (u.spend_per_active_card_month = none ∨
          u.in_app_share = none ∨ u.avg_ticket = none ∨ u.ecom_share = none)) ∨
        (∃ c, s.commercial = some c ∧ (c.partner_fee_pct = none ∨
          c.interchange_pct = none ∨ c.b2b = none))) →
      ∃ n, simulate plan s = .error (.missingField n)) ∧
    (simulate planA scenNegSpendFail = .error (.invalidValue "Volume must be >= 0")) := by
  constructor
  · intro plan s hmiss
    cases hres : parseScenario s with
    | error e =>
      obtain ⟨n, hn⟩ := parseScenario_error_shape hres
      rw [hn] at hres
      exact ⟨n, simulate_parse_error hres⟩
    | ok p =>
      exfalso
      obtain ⟨h1, ⟨a, ha, ha2⟩, ⟨u, hu, hu1, hu2, hu3, hu4⟩, ⟨c, hc, hc1, hc2, b, hb⟩,
        ⟨t, ht⟩⟩ := parseScenario_ok_shape hres
      rcases hmiss with h | h | h | h | h | ⟨a2, haa, han⟩ | ⟨u2, huu, hun⟩ | ⟨c2, hcc, hcn⟩
      · rw [h] at h1; cases h1
      · rw [h] at ha; cases ha
      · rw [h] at hu; cases hu
      · rw [h] at hc; cases hc
      · rw [h] at ht; cases ht
      · rw [haa] at ha
        injection ha with ha
        subst ha
        rw [han] at ha2
        cases ha2
      · rw [huu] at hu
        injection hu with hu
        subst hu
        rcases hun with h | h | h | h
        · rw [h] at hu1; cases hu1
        · rw [h] at hu2; cases hu2
        · rw [h] at hu3; cases hu3
        · rw [h] at hu4; cases hu4
      · rw [hcc] at hc
        injection hc with hc
        subst hc
        rcases hcn with h | h | h
        · rw [h] at hc1; cases hc1
        · rw [h] at hc2; cases hc2
        · rw [h] at hb; cases hb
  · decide

/-- Witness for the amended C7: removing the horizon field makes
`simulate` fail with a missing-field error. -/
theorem C7_witness : ∃ n, simulate planA scenNoHorizon = .error (.missingField n) :=
  C7_missing_field_and_invalid_value.1 planA scenNoHorizon (Or.inl rfl)

/-! ### Graduated-tier lemmas (claim C9) -/

theorem gradLoop_cons (r prev : ℚ) (t : Tier) (rest : List Tier) :
    gradLoop r prev (t :: rest) =
      match t.up_to with
      | none => r * t.price
      | some upTo =>
        let tierVolume := min r (upTo - prev)
        let cost := if 0 < tierVolume then tierVolume * t.price else 0
        let remaining2 := if 0 < tierVolume then r - tierVolume else r
        if remaining2 ≤ 0 then cost else cost + gradLoop remaining2 upTo rest := rfl

theorem gradLoop_zero (prev : ℚ) (ts : List Tier) : gradLoop 0 prev ts = 0 := by
  cases ts with
  | nil => rfl
  | cons t rest =>
    rw [gradLoop_cons]
    cases t.up_to with
    | none => simp
    | some b =>
      have h1 : ¬(0 < min 0 (b - prev)) := not_lt.2 (min_le_left 0 _)
      simp [h1]

/-- Normal form of one graduated step (for non-negative remaining volume):
charge the clamped band portion and recurse on what is left. -/
theorem gradLoop_cons_some (t : Tier) (rest : List Tier) (prev b r : ℚ)
    (hb : t.up_to = some b) (hr : 0 ≤ r) :
    gradLoop r prev (t :: rest) =
      max (min r (b - prev)) 0 * t.price +
        gradLoop (r - max (min r (b - prev)) 0) b rest := by
  rw [gradLoop_cons, hb]
  dsimp only
  by_cases htv : 0 < min r (b - prev)
  · rw [if_pos htv, if_pos htv, max_eq_left htv.le]
    by_cases hrem : r - min r (b - prev) ≤ 0
    · have hge : 0 ≤ r - min r (b - prev) := sub_nonneg.2 (min_le_left r _)
      have h0 : r - min r (b - prev) = 0 := le_antisymm hrem hge
      rw [if_pos hrem, h0, gradLoop_zero, add_zero]
    · rw [if_neg hrem]
  · rw [if_neg htv, if_neg htv, max_eq_right (not_lt.1 htv), zero_mul, zero_add, sub_zero]
    by_cases hrem : r ≤ 0
    · have h0 : r = 0 := le_antisymm hrem hr
      rw [if_pos hrem, h0, gradLoop_zero]
      norm_num
    · rw [if_neg hrem, zero_add]

/-- The graduated loop is monotone and `M`-Lipschitz in the volume when
every tier price lies in `[0, M]`. -/
theorem gradLoop_mono_lipschitz (M : ℚ) (hM : 0 ≤ M) :
    ∀ (ts : List Tier), (∀ t ∈ ts, 0 ≤ t.price ∧ t.price ≤ M) →
    ∀ (prev r1 r2 : ℚ), 0 ≤ r1 → r1 ≤ r2 →
      gradLoop r1 prev ts ≤ gradLoop r2 prev ts ∧
      gradLoop r2 prev ts - gradLoop r1 prev ts ≤ M * (r2 - r1) := by
  intro ts
  induction ts with
  | nil =>
    intro _ prev r1 r2 h0 h12
    refine ⟨le_rfl, ?_⟩
    simp only [gradLoop, sub_self]
    exact mul_nonneg hM (by linarith)
  | cons t rest ih =>
    intro hprices prev r1 r2 h01 h12
    have hpt : 0 ≤ t.price ∧ t.price ≤ M := hprices t (by simp)
    have hrest : ∀ q ∈ rest, 0 ≤ q.price ∧ q.price ≤ M :=
      fun q hq => hprices q (by simp [hq])
    cases hu : t.up_to with
    | none =>
      rw [gradLoop_cons, gradLoop_cons, hu]
      dsimp only
      constructor
      · exact mul_le_mul_of_nonneg_right h12 hpt.1
      · nlinarith [hpt.1, hpt.2]
    | some b =>
      rw [gradLoop_cons_some t rest prev b r1 hu h01,
          gradLoop_cons_some t rest prev b r2 hu (le_trans h01 h12)]
      have h02 : 0 ≤ r2 := le_trans h01 h12
      set w := b - prev with hw
      set s1 := max (min r1 w) 0 with hs1def
      set s2 := max (min r2 w) 0 with hs2def
      have hs1 : 0 ≤ s1 := le_max_right _ _
      have hs12 : s1 ≤ s2 := max_le_max (min_le_min h12 le_rfl) le_rfl
      have hs1r : s1 ≤ r1 := max_le (min_le_left _ _) h01
      have hs2r : s2 ≤ r2 := max_le (min_le_left _ _) h02
      have hsub : s2 - s1 ≤ r2 - r1 := by
        rcases le_total r1 w with ha | ha
        · have e1 : s1 = r1 := by
            rw [hs1def, min_eq_left ha, max_eq_left h01]
          rcases le_total r2 w with hb2 | hb2
          · have e2 : s2 = r2 := by
              rw [hs2def, min_eq_left hb2, max_eq_left h02]
            rw [e1, e2]
          · have e2 : s2 ≤ r2 := hs2r
            rw [e1]
            linarith
        · have e12 : s2 = s1 := by
            rw [hs1def, hs2def, min_eq_right ha, min_eq_right (le_trans ha h12)]
          rw [e12]
          linarith
      have hu1 : 0 ≤ r1 - s1 := by linarith
      have hu12 : r1 - s1 ≤ r2 - s2 := by linarith
      obtain ⟨e3, e4⟩ := ih hrest b (r1 - s1) (r2 - s2) hu1 hu12
      have e1 : s1 * t.price ≤ s2 * t.price := mul_le_mul_of_nonneg_right hs12 hpt.1
      have e2 : s2 * t.price - s1 * t.price ≤ M * (s2 - s1) := by
        nlinarith [hpt.2, sub_nonneg.2 hs12, hpt.1]
      constructor
      · linarith
      · have hring : M * ((r2 - s2) - (r1 - s1)) + M * (s2 - s1) = M * (r2 - r1) := by
          ring
        linarith

/-- For positive volume and a non-empty schedule, `apply_graduated_tiers`
returns the graduated loop value. -/
theorem apply_graduated_pos {v : ℚ} {tiers : List Tier} (hv : 0 < v) (ht : tiers ≠ []) :
    apply_graduated_tiers v tiers = .ok (gradLoop v 0 tiers) := by
  unfold apply_graduated_tiers
  rw [if_neg (not_lt.2 hv.le), if_neg (by simpa using ht), if_neg hv.ne']

/-- Counterexample to C9 as stated: with two tiers of equal price, the
graduated and step costs coincide at volume 20 even though 20 exceeds the
first tier's bound 10, so equality is not restricted to volumes at most
the first bound. -/
theorem C9_counterexample :
    apply_graduated_tiers 20 [⟨some 10, 1⟩, ⟨none, 1⟩] = .ok 20 ∧
    apply_tiers 20 [⟨some 10, 1⟩, ⟨none, 1⟩] = .ok 20 ∧
    ¬((20 : ℚ) ≤ 10) :=
  ⟨by decide, by decide, by norm_num⟩

/-- C9 (amended): `apply_graduated_tiers` has no discontinuity at tier
boundaries — for prices bounded by `M` it changes by less than any ε on a
δ-neighbourhood of every positive boundary — and it agrees with
`apply_tiers` (the whole volume at the first tier's price) whenever the
volume is at most the first tier's bound; beyond that bound the two can
still coincide (e.g. with equal tier prices), so equality is not exclusive
to the first band. -/
theorem C9_graduated_continuity_and_first_tier :
    (∀ (tiers : List Tier) (M : ℚ), 0 ≤ M →
      (∀ t ∈ tiers, 0 ≤ t.price ∧ t.price ≤ M) → tiers ≠ [] →
      ∀ b, (∃ t ∈ tiers, t.up_to = some b) → 0 < b →
      ∀ ε : ℚ, 0 < ε → ∃ δ : ℚ, 0 < δ ∧ ∀ v gv gb, 0 < v → |v - b| < δ →
        apply_graduated_tiers v tiers = .ok gv →
        apply_graduated_tiers b tiers = .ok gb →
        |gv - gb| < ε) ∧
    (∀ (v : ℚ) (t : Tier) (rest : List Tier), 0 < v →
      (t.up_to = none ∨ ∃ b, t.up_to = some b ∧ v ≤ b) →
      apply_graduated_tiers v (t :: rest) = apply_tiers v (t :: rest) ∧
      apply_graduated_tiers v (t :: rest) = .ok (v * t.price)) := by
  constructor
  · intro tiers M hM hprices hne b hbound hb ε hε
    refine ⟨ε / (M + 1), div_pos hε (by linarith), ?_⟩
    intro v gv gb hv hvb hgv hgb
    rw [apply_graduated_pos hv hne] at hgv
    rw [apply_graduated_pos hb hne] at hgb
    injection hgv with hgv
    injection hgb with hgb
    subst hgv hgb
    have key : |gradLoop v 0 tiers - gradLoop b 0 tiers| ≤ M * |v - b| := by
      rcases le_total v b with hvb2 | hvb2
      · obtain ⟨e1, e2⟩ := gradLoop_mono_lipschitz M hM tiers hprices 0 v b hv.le hvb2
        rw [abs_sub_comm (gradLoop v 0 tiers), abs_of_nonneg (sub_nonneg.2 e1),
          abs_sub_comm v b, abs_of_nonneg (sub_nonneg.2 hvb2)]
        exact e2
      · obtain ⟨e1, e2⟩ := gradLoop_mono_lipschitz M hM tiers hprices 0 b v hb.le hvb2
        rw [abs_of_nonneg (sub_nonneg.2 e1), abs_of_nonneg (sub_nonneg.2 hvb2)]
        exact e2
    have hlt : M * |v - b| < ε := by
      have habs : 0 ≤ |v - b| := abs_nonneg _
      have h2 : M * |v - b| ≤ M * (ε / (M + 1)) :=
        mul_le_mul_of_nonneg_left hvb.le hM
      have h3 : M * (ε / (M + 1)) < ε := by
        have hM1 : (0 : ℚ) < M + 1 := by linarith
        rw [← mul_div_assoc, div_lt_iff hM1]
        nlinarith
      linarith
    linarith [key, hlt]
  · intro v t rest hv hfirst
    have hgrad : gradLoop v 0 (t :: rest) = v * t.price := by
      rcases hfirst with hu | ⟨b, hu, hvb⟩
      · rw [gradLoop_cons, hu]
      · rw [gradLoop_cons_some t rest 0 b v hu hv.le]
        rw [sub_zero, min_eq_left hvb, max_eq_left hv.le, sub_self, gradLoop_zero, add_zero]
    have hstep : apply_tiers v (t :: rest) = .ok (v * t.price) := by
      rw [show apply_tiers v (t :: rest) =
          .ok (applyTiersLoop v ((t :: rest).getLast (by simp)) (t :: rest)) by
        unfold apply_tiers
        rw [if_neg (not_lt.2 hv.le)]
        exact if_neg hv.ne']
      rcases hfirst with hu | ⟨b, hu, hvb⟩
      · rw [show applyTiersLoop v ((t :: rest).getLast (by simp)) (t :: rest) =
          v * t.price by rw [applyTiersLoop]; rw [hu]]
      · rw [show applyTiersLoop v ((t :: rest).getLast (by simp)) (t :: rest) =
          v * t.price by rw [applyTiersLoop]; rw [hu]; exact if_pos hvb]
    rw [apply_graduated_pos hv (by simp), hgrad]
    exact ⟨hstep.symm, rfl⟩

/-- Witness for the amended C9: volume 5 within the first band prices
identically under both models. -/
theorem C9_witness :
    apply_graduated_tiers 5 [⟨some 10, 2⟩] = apply_tiers 5 [⟨some 10, 2⟩] ∧
    apply_graduated_tiers 5 [⟨some 10, 2⟩] = .ok 10 := by
  obtain ⟨h1, h2⟩ := C9_graduated_continuity_and_first_tier.2 5 ⟨some 10, 2⟩ []
    (by norm_num) (Or.inr ⟨10, rfl, by norm_num⟩)
  exact ⟨h1, h2.trans (by decide)⟩

end Movesion
